import Mathlib

/-!
Verification of the mcp-codex-dev supervisor (process orchestration,
event normalization, progress distribution, session store) against its
design document.  The definitions below are shallow embeddings of the
TypeScript source: JavaScript objects parsed from JSON lines are modelled
by the `Json` inductive, JavaScript exceptions by `Except JsError`, and
the stateful session store by explicit state-passing functions.
-/

set_option maxRecDepth 2000

namespace Spec2Proof

/-! ### JSON value model

`Json` models the JavaScript values produced by `JSON.parse` on the
tool's line-delimited output.  Numbers are modelled as integers: the
fields the system inspects (`exit_code`, token counts) are integral, and
no claim depends on non-integral values.  Object fields are kept in
insertion order; on duplicate keys, JavaScript keeps the last value,
which `lookupLastKey` reproduces. -/

inductive Json where
  | null
  | bool (b : Bool)
  | num (n : Int)
  | str (s : String)
  | arr (elems : List Json)
  | obj (fields : List (String × Json))
deriving Repr, Inhabited

def lookupLastKey (kvs : List (String × Json)) (k : String) : Option Json :=
  match kvs with
  | [] => none
  | (k1, v) :: rest =>
    match lookupLastKey rest k with
    | some r => some r
    | none => if k1 = k then some v else none

/-- Property read `v.k` on a JavaScript value that is not null/undefined:
yields the field of an object, `undefined` (`none`) otherwise. -/
def jsGet (v : Json) (k : String) : Option Json :=
  match v with
  | .obj kvs => lookupLastKey kvs k
  | _ => none

/-- JavaScript truthiness. -/
def jsTruthy : Json → Bool
  | .null => false
  | .bool b => b
  | .num n => n != 0
  | .str s => s ≠ ""
  | .arr _ => true
  | .obj _ => true

/-- Collapse `null` into `undefined`: the left operand test of `??` and `?.`. -/
def jsNullish : Option Json → Option Json
  | some .null => none
  | o => o

/-- `a ?? b` on JavaScript values. -/
def jsOrElse (a b : Option Json) : Option Json :=
  match jsNullish a with
  | some v => some v
  | none => b

/-! ### JSON.parse

A fuel-indexed recursive-descent parser for the JSON grammar, on the
character list of the line.  Fuel `s.length + 1` always suffices since
every value consumes at least one character.  Fractional and exponent
parts of numbers are consumed but the value is truncated to its integer
part (no claim depends on non-integral number values). -/

/-- Drop the JSON insignificant whitespace (space, tab, newline,
carriage return — exactly `Char.isWhitespace`). -/
def skipWs (cs : List Char) : List Char :=
  match cs with
  | [] => []
  | c :: rest => if c.isWhitespace then skipWs rest else cs

def hexDigitVal (c : Char) : Option Nat :=
  if c.isDigit then some (c.toNat - 48)
  else if 'a' ≤ c ∧ c ≤ 'f' then some (c.toNat - 87)
  else if 'A' ≤ c ∧ c ≤ 'F' then some (c.toNat - 55)
  else none

def escapeDecode (c : Char) : Option Char :=
  match c with
  | 'n' => some '\n'
  | 't' => some '\t'
  | 'r' => some '\r'
  | 'b' => some (Char.ofNat 0x08)
  | 'f' => some (Char.ofNat 0x0c)
  | '"' => some '"'
  | '\\' => some '\\'
  | '/' => some '/'
  | _ => none

def parseStringRest (fuel : Nat) (cs : List Char) : Option (String × List Char) :=
  match fuel, cs with
  | 0, _ => none
  | _, [] => none
  | fuel + 1, c :: cs =>
    if c = '"' then some ("", cs)
    else if c = '\\' then
      match cs with
      | 'u' :: u1 :: u2 :: u3 :: u4 :: rest => do
        let v1 ← hexDigitVal u1
        let v2 ← hexDigitVal u2
        let v3 ← hexDigitVal u3
        let v4 ← hexDigitVal u4
        let (tail, remaining) ← parseStringRest fuel rest
        some (String.singleton (Char.ofNat (v1 * 4096 + v2 * 256 + v3 * 16 + v4)) ++ tail,
          remaining)
      | e :: rest => do
        let decoded ← escapeDecode e
        let (tail, remaining) ← parseStringRest fuel rest
        some (String.singleton decoded ++ tail, remaining)
      | [] => none
    else
      (parseStringRest fuel cs).map (fun p => (String.singleton c ++ p.1, p.2))

def spanDigits (cs : List Char) : List Char × List Char :=
  match cs with
  | d :: rest =>
    if d.isDigit then
      let p := spanDigits rest
      (d :: p.1, p.2)
    else ([], cs)
  | [] => ([], [])

def decDigitsVal (ds : List Char) : Nat :=
  ds.foldl (fun acc d => 10 * acc + (d.toNat - 48)) 0

def parseNumberTail (neg : Bool) (cs : List Char) : Option (Int × List Char) :=
  match spanDigits cs with
  | ([], _) => none
  | (ds, rest) =>
    let afterFrac := match rest with
      | '.' :: r => (spanDigits r).2
      | _ => rest
    let afterExp := match afterFrac with
      | 'e' :: '+' :: r => (spanDigits r).2
      | 'e' :: '-' :: r => (spanDigits r).2
      | 'e' :: r => (spanDigits r).2
      | 'E' :: '+' :: r => (spanDigits r).2
      | 'E' :: '-' :: r => (spanDigits r).2
      | 'E' :: r => (spanDigits r).2
      | _ => afterFrac
    let n : Int := Int.ofNat (decDigitsVal ds)
    some (if neg then -n else n, afterExp)

mutual

def parseValue (fuel : Nat) (cs : List Char) : Option (Json × List Char) :=
  match fuel with
  | 0 => none
  | fuel + 1 =>
    match skipWs cs with
    | 'n' :: 'u' :: 'l' :: 'l' :: r => some (.null, r)
    | 't' :: 'r' :: 'u' :: 'e' :: r => some (.bool true, r)
    | 'f' :: 'a' :: 'l' :: 's' :: 'e' :: r => some (.bool false, r)
    | '"' :: r => (parseStringRest (r.length + 1) r).map (fun p => (.str p.1, p.2))
    | '[' :: r =>
      (match skipWs r with
       | ']' :: r2 => some (.arr [], r2)
       | r2 => (parseElems fuel r2).map (fun p => (.arr p.1, p.2)))
    | c :: r =>
      if c = '-' then (parseNumberTail true r).map (fun p => (.num p.1, p.2))
      else if c.isDigit then (parseNumberTail false (c :: r)).map (fun p => (.num p.1, p.2))
      else if c = Char.ofNat 123 then
        (match skipWs r with
         | c2 :: r2 =>
           if c2 = Char.ofNat 125 then some (.obj [], r2)
           else (parseMembers fuel (c2 :: r2)).map (fun p => (.obj p.1, p.2))
         | [] => none)
      else none
    | [] => none

def parseElems (fuel : Nat) (cs : List Char) : Option (List Json × List Char) :=
  match fuel with
  | 0 => none
  | fuel + 1 => do
    let (v, r) ← parseValue fuel cs
    match skipWs r with
    | ',' :: r2 => do
      let (vs, r3) ← parseElems fuel r2
      some (v :: vs, r3)
    | ']' :: r2 => some ([v], r2)
    | _ => none

def parseMembers (fuel : Nat) (cs : List Char) : Option (List (String × Json) × List Char) :=
  match fuel with
  | 0 => none
  | fuel + 1 =>
    match skipWs cs with
    | '"' :: r => do
      let (k, r1) ← parseStringRest (r.length + 1) r
      match skipWs r1 with
      | ':' :: r2 => do
        let (v, r3) ← parseValue fuel r2
        match skipWs r3 with
        | ',' :: r4 => do
          let (kvs, r5) ← parseMembers fuel r4
          some ((k, v) :: kvs, r5)
        | c :: r4 =>
          if c = Char.ofNat 125 then some ([(k, v)], r4) else none
        | [] => none
      | _ => none
    | _ => none

end

/-- The embedding of `JSON.parse(line)`: `none` models the thrown
`SyntaxError` (always caught at the call sites). -/
def jsonParse (s : String) : Option Json :=
  match parseValue (s.length + 1) s.data with
  | some (v, rest) => if (skipWs rest).isEmpty then some v else none
  | none => none

/-! ### JSON.stringify and string coercion -/

def escapeJsonStr (s : String) : String :=
  s.data.foldl
    (fun acc c =>
      acc ++
        (if c = '"' then "\\\""
         else if c = '\\' then "\\\\"
         else if c = '\n' then "\\n"
         else if c = '\t' then "\\t"
         else if c = '\r' then "\\r"
         else String.singleton c))
    ""

mutual

def stringifyVal : Json → String
  | .null => "null"
  | .bool true => "true"
  | .bool false => "false"
  | .num n => toString n
  | .str s => "\"" ++ escapeJsonStr s ++ "\""
  | .arr xs => "[" ++ stringifyElems xs ++ "]"
  | .obj kvs => "\x7b" ++ stringifyMembers kvs ++ "\x7d"

def stringifyElems : List Json → String
  | [] => ""
  | [x] => stringifyVal x
  | x :: xs => stringifyVal x ++ "," ++ stringifyElems xs

def stringifyMembers : List (String × Json) → String
  | [] => ""
  | [(k, v)] => "\"" ++ escapeJsonStr k ++ "\":" ++ stringifyVal v
  | (k, v) :: kvs =>
    "\"" ++ escapeJsonStr k ++ "\":" ++ stringifyVal v ++ "," ++ stringifyMembers kvs

end

mutual

/-- JavaScript `String(v)` — template-literal coercion of a value. -/
def jsTemplate : Json → String
  | .null => "null"
  | .bool true => "true"
  | .bool false => "false"
  | .num n => toString n
  | .str s => s
  | .arr xs => jsTemplateElems xs
  | .obj _ => "[object Object]"

def jsTemplateElems : List Json → String
  | [] => ""
  | [x] => (match x with | .null => "" | v => jsTemplate v)
  | x :: xs =>
    (match x with | .null => "" | v => jsTemplate v) ++ "," ++ jsTemplateElems xs

end

/-- `${x.k}` where `x` itself is not nullish: a missing field prints as
`undefined`, a null field as `null`. -/
def tmplProp (v : Json) (k : String) : String :=
  match jsGet v k with
  | none => "undefined"
  | some w => jsTemplate w

/-- `(x as string) ?? d` used in a string position: the raw value when it
is not nullish (the source's unchecked cast trusts it to be a string; a
non-string payload is rendered by its coercion), else the default. -/
def coalesceStr (o : Option Json) (d : String) : String :=
  match jsNullish o with
  | some v => jsTemplate v
  | none => d

/-- `x.length` as read by JavaScript: arrays and strings have a numeric
length, objects may carry a `length` field, primitives yield undefined. -/
def jsLength : Json → Option Json
  | .arr xs => some (.num xs.length)
  | .str s => some (.num s.length)
  | .obj kvs => lookupLastKey kvs "length"
  | _ => none

/-- Whitespace in the sense of `String.prototype.trim` (the transcripts
are ASCII). -/
def isWsChar (c : Char) : Bool := c = ' ' ∨ c = '\t' ∨ c = '\n' ∨ c = '\r'

/-- `s.trim()`. -/
def strTrim (s : String) : String :=
  ⟨((s.data.dropWhile isWsChar).reverse.dropWhile isWsChar).reverse⟩

/-- `s.split("\n")` on the character list. -/
def splitNl : List Char → List (List Char)
  | [] => [[]]
  | c :: cs =>
    if c = '\n' then [] :: splitNl cs
    else
      match splitNl cs with
      | [] => [[c]]
      | l :: ls => (c :: l) :: ls

/-- `s.split("\n")`. -/
def splitLines (s : String) : List String := (splitNl s.data).map (fun l => ⟨l⟩)

/-- `x?.[0]`: indexing a non-nullish value at 0. -/
def jsIndex0 : Json → Option Json
  | .arr (x :: _) => some x
  | .arr [] => none
  | .str s =>
    match s.data with
    | c :: _ => some (.str (String.singleton c))
    | [] => none
  | .obj kvs => lookupLastKey kvs "0"
  | _ => none

/-! ### Progress events and the Event Normalizer (event-mapper.ts)

`JsError` models a JavaScript runtime exception (a `TypeError`) escaping
a function that was not written to throw; `Except JsError α` is the
result type of every embedded function that can raise one. -/

structure JsError where
  message : String
deriving DecidableEq, Repr

def typeError : JsError := ⟨"TypeError"⟩

/-- The `ProgressEvent` interface: `type` is one of the literal strings
start / reasoning / command / command_result / file_change / message /
end / error. -/
structure ProgressEvent where
  timestamp : String
  operationId : String
  type : String
  content : String
deriving DecidableEq, Repr

/-- The `item.completed` / `item.created` branch of the Normalizer. -/
def mapCompletedItem (event : Json) (operationId now : String) :
    Except JsError (Option ProgressEvent) :=
  match jsGet event "item" with
  | none => .ok none                -- if (!item) return null
  | some item =>
    if !jsTruthy item then .ok none
    else
      let itemType : Option String :=
        match jsGet item "type" with
        | some (.str t) => some t
        | _ => none
      if itemType = some "reasoning" then
        -- const text = (item.text as string) ?? ((item.content as ...)?.[0]?.text ?? "")
        let inner := (jsNullish (jsGet item "content")).bind jsIndex0
        let innerText := (jsNullish inner).bind (fun v => jsGet v "text")
        let text :=
          match jsNullish (jsGet item "text") with
          | some v => jsTemplate v
          | none => coalesceStr innerText ""
        .ok (some ⟨now, operationId, "reasoning", text⟩)
      else if itemType = some "command_execution" then
        -- const cmd = (item.command as string) ?? JSON.stringify(item)
        let cmd :=
          match jsNullish (jsGet item "command") with
          | some v => jsTemplate v
          | none => stringifyVal item
        match jsGet item "exit_code" with
        | some ec =>
          -- exit_code present (even null): exitCode !== undefined → command_result
          let outSuffix :=
            match jsNullish (jsGet item "output") with
            | some v => if jsTruthy v then ": " ++ jsTemplate v else ""
            | none => ""
          .ok (some ⟨now, operationId, "command_result", "exit " ++ jsTemplate ec ++ outSuffix⟩)
        | none => .ok (some ⟨now, operationId, "command", cmd⟩)
      else if itemType = some "file_change" then
        match jsGet item "changes" with
        | some (.arr changes) => do
          -- changes.map((c) => `$\x7bc.kind\x7d: $\x7bc.path\x7d`).join(", ");
          -- reading c.kind on a null element throws a TypeError
          let parts ← changes.mapM (fun c =>
            match c with
            | .null => Except.error typeError
            | c => Except.ok (tmplProp c "kind" ++ ": " ++ tmplProp c "path"))
          .ok (some ⟨now, operationId, "file_change", String.intercalate ", " parts⟩)
        | _ =>
          -- not (changes && Array.isArray(changes)): fall back to filename + action
          let filename := coalesceStr (jsGet item "filename") ""
          let action := coalesceStr (jsGet item "action") "change"
          .ok (some ⟨now, operationId, "file_change", action ++ ": " ++ filename⟩)
      else if itemType = some "agent_message" then
        .ok (some ⟨now, operationId, "message", coalesceStr (jsGet item "text") ""⟩)
      else
        match jsGet item "role" with
        | some (.str "assistant") =>
          match jsGet item "content" with
          | some content =>
            -- if (content && content.length > 0)
            if jsTruthy content &&
                (match jsLength content with
                 | some (.num n) => decide (0 < n)
                 | _ => false) then
              match content with
              | .arr items => do
                -- content.map((c) => c.text ?? "").join(" "); c.text on null throws
                let parts ← items.mapM (fun c =>
                  match c with
                  | .null => Except.error typeError
                  | c => Except.ok (coalesceStr (jsGet c "text") ""))
                .ok (some ⟨now, operationId, "message", String.intercalate " " parts⟩)
              | _ =>
                -- content passed the length test but has no .map (e.g. a string):
                -- content.map is not a function
                .error typeError
            else .ok none
          | none => .ok none
        | _ => .ok none

/-- The Event Normalizer `mapCodexLineToProgressEvent(line, operationId)`
from event-mapper.ts.  `now` stands for `new Date().toISOString()`.
`.ok none` is the source's `return null` (line ignored); `.error` models
a JavaScript `TypeError` escaping the function. -/
def mapCodexLineToProgressEvent (line operationId now : String) :
    Except JsError (Option ProgressEvent) :=
  match jsonParse line with
  | none => .ok none                 -- catch around JSON.parse
  | some event =>
    match jsGet event "type" with
    | some (.str t) =>
      if t = "thread.started" then
        -- const sid = event.session_id ?? event.thread_id ?? ""
        let sid := jsOrElse (jsGet event "session_id") (jsGet event "thread_id")
        .ok (some ⟨now, operationId, "start", coalesceStr sid ""⟩)
      else if t = "item.completed" ∨ t = "item.created" then
        mapCompletedItem event operationId now
      else if t = "item.started" then
        -- if (item?.type === "command_execution") → command
        match jsNullish (jsGet event "item") with
        | some item =>
          match jsGet item "type" with
          | some (.str "command_execution") =>
            .ok (some ⟨now, operationId, "command", coalesceStr (jsGet item "command") ""⟩)
          | _ => .ok none
        | none => .ok none
      else if t = "turn.completed" then
        let content :=
          match jsGet event "usage" with
          | some v => if jsTruthy v then stringifyVal v else "turn completed"
          | none => "turn completed"
        .ok (some ⟨now, operationId, "end", content⟩)
      else .ok none
    | _ => .ok none

/-! ### Output reparsing (CodexExecutor.parseOutput, codex-executor.ts) -/

structure ParsedCodexOutput where
  sessionId : String
  summary : String
  filesModified : List String
  filesCreated : List String
  rawEvents : List Json
  agentMessages : List String
deriving Repr

/-- The event-collection loop: split on newlines, skip blank lines, parse
each line, skip non-JSON lines. -/
def parseOutputEvents (stdout : String) : List Json :=
  ((splitLines (strTrim stdout)).filter (fun l => strTrim l ≠ "")).filterMap jsonParse

/-- `events.find((e) => e.type === "thread.started")` and the
`session_id ?? thread_id` read, guarded by `if (startedId)`. -/
def extractSessionId (events : List Json) : String :=
  match events.find? (fun e =>
      match jsGet e "type" with
      | some (.str t) => t = "thread.started"
      | _ => false) with
  | none => ""
  | some e =>
    match jsOrElse (jsGet e "session_id") (jsGet e "thread_id") with
    | some v => if jsTruthy v then jsTemplate v else ""
    | none => ""

/-- A value pushed into `filesCreated`/`filesModified` as it later prints
inside `Array.prototype.join` (null and undefined render empty). -/
def joinDisp (o : Option Json) : String :=
  match o with
  | none => ""
  | some .null => ""
  | some v => jsTemplate v

/-- The file-change extraction loop.  Returns (filesCreated,
filesModified); reading `change.kind` on a null array element throws. -/
def extractFiles (events : List Json) :
    Except JsError (List String × List String) :=
  events.foldlM
    (fun acc e =>
      match jsGet e "type" with
      | some (.str t) =>
        if t = "item.completed" ∨ t = "item.created" then
          match jsNullish (jsGet e "item") with
          | some item =>
            match jsGet item "type" with
            | some (.str "file_change") =>
              match jsGet item "changes" with
              | some (.arr changes) =>
                changes.foldlM
                  (fun acc c =>
                    match c with
                    | .null => Except.error typeError
                    | c =>
                      match jsGet c "kind" with
                      | some (.str "add") =>
                        Except.ok (acc.1 ++ [joinDisp (jsGet c "path")], acc.2)
                      | _ =>
                        Except.ok (acc.1, acc.2 ++ [joinDisp (jsGet c "path")]))
                  acc
              | _ =>
                -- old format: filename + action
                match jsGet item "filename" with
                | some fn =>
                  if jsTruthy fn then
                    match jsGet item "action" with
                    | some (.str "created") => Except.ok (acc.1 ++ [jsTemplate fn], acc.2)
                    | some (.str "modified") => Except.ok (acc.1, acc.2 ++ [jsTemplate fn])
                    | _ => Except.ok acc
                  else Except.ok acc
                | none => Except.ok acc
            | _ => Except.ok acc
          | none => Except.ok acc
        else Except.ok acc
      | _ => Except.ok acc)
    ([], [])

/-- The agent-message extraction loop.  The source guards its first
branch with `item?.type === "agent_message" && item.text`, so an
agent_message item whose text is falsy falls through into the
`else if (item?.role === "assistant" && item.content)` branch.  There,
`for (const content of item.content)` iterates arrays (a null element
throws on `.type`) and strings (whose single-character elements have no
`.type`); any other truthy value is not iterable and throws. -/
def extractMessages (events : List Json) : Except JsError (List String) :=
  events.foldlM
    (fun acc e =>
      match jsGet e "type" with
      | some (.str t) =>
        if t = "item.completed" ∨ t = "item.created" then
          match jsNullish (jsGet e "item") with
          | some item =>
            let isAgentMessageWithText : Bool :=
              (match jsGet item "type" with
               | some (.str ty) => ty = "agent_message"
               | _ => false) &&
              (match jsGet item "text" with
               | some tx => jsTruthy tx
               | none => false)
            if isAgentMessageWithText then
              match jsGet item "text" with
              | some tx => Except.ok (acc ++ [jsTemplate tx])
              | none => Except.ok acc
            else
              match jsGet item "role" with
              | some (.str "assistant") =>
                match jsGet item "content" with
                | some content =>
                  if jsTruthy content then
                    match content with
                    | .arr items =>
                      items.foldlM
                        (fun acc c =>
                          match c with
                          | .null => Except.error typeError
                          | c =>
                            match jsGet c "type" with
                            | some (.str "text") =>
                              match jsGet c "text" with
                              | some tx =>
                                if jsTruthy tx then Except.ok (acc ++ [jsTemplate tx])
                                else Except.ok acc
                              | none => Except.ok acc
                            | _ => Except.ok acc)
                        acc
                    | .str _ => Except.ok acc
                    | _ => Except.error typeError
                  else Except.ok acc
                | none => Except.ok acc
              | _ => Except.ok acc
          | none => Except.ok acc
        else Except.ok acc
      | _ => Except.ok acc)
    []

/-- The derived files sentence:
`[created, modified].filter(Boolean).join(". ")`. -/
def filesSentence (created modified : List String) : String :=
  let c := if created.length > 0 then "Created: " ++ String.intercalate ", " created else ""
  let m := if modified.length > 0 then "Modified: " ++ String.intercalate ", " modified else ""
  String.intercalate ". " ([c, m].filter (· ≠ ""))

/-- `CodexExecutor.parseOutput(stdout)`.  A `.error` models a JavaScript
`TypeError` escaping the function on a malformed transcript. -/
def parseOutput (stdout : String) : Except JsError ParsedCodexOutput := do
  let events := parseOutputEvents stdout
  let sessionId := extractSessionId events
  let files ← extractFiles events
  let agentMessages ← extractMessages events
  let summary :=
    match agentMessages.getLast? with
    | some lastMessage => lastMessage.take 500
    | none =>
      if files.1.length > 0 ∨ files.2.length > 0 then filesSentence files.1 files.2
      else ""
  pure
    { sessionId
      summary
      filesModified := files.2
      filesCreated := files.1
      rawEvents := events
      agentMessages }

/-! ### Session Store (session-manager.ts)

One project scope is modelled (the claims never cross scopes).  The
in-memory `Map` is a key-value list with unique keys, in insertion
order.  Timestamps are epoch milliseconds (`Date.now()` /
`getTime()` of the stored ISO string — the two are order-isomorphic).
Each mutating operation returns the new table together with a flag
telling whether `save` (the on-disk write) was invoked. -/

inductive SessionStatus
  | active
  | completed
  | abandoned
deriving DecidableEq, Repr

inductive SessionType
  | write
  | review
  | exec
deriving DecidableEq, Repr

structure TrackedSession where
  sessionId : String
  type : SessionType
  instruction : Option String := none
  baseSha : Option String := none
  headSha : Option String := none
  createdAt : Int
  lastResumedAt : Option Int := none
  linkedSessionId : Option String := none
  status : SessionStatus
deriving DecidableEq, Repr

abbrev SessionTable := List (String × TrackedSession)

/-- In-place mutation of the record stored under `id` (keys and order
unchanged). -/
def tableModify (m : SessionTable) (id : String)
    (f : TrackedSession → TrackedSession) : SessionTable :=
  match m with
  | [] => []
  | (k, v) :: rest =>
    if k = id then (k, f v) :: tableModify rest id f
    else (k, v) :: tableModify rest id f

/-- `Map.set`: replace in place when the key exists, append otherwise. -/
def tableSet (m : SessionTable) (k : String) (v : TrackedSession) : SessionTable :=
  if (m.lookup k).isSome then tableModify m k (fun _ => v) else m ++ [(k, v)]

/-- `track(session)`: insert or overwrite, then save. -/
def track (m : SessionTable) (s : TrackedSession) : SessionTable :=
  tableSet m s.sessionId s

/-- `updateStatus(sessionId, status)`: mutate and save only when the
record exists; the boolean reports whether `save` ran. -/
def updateStatus (m : SessionTable) (id : String) (st : SessionStatus)
    (now : Int) : SessionTable × Bool :=
  match m.lookup id with
  | some _ =>
    (tableModify m id (fun s => { s with status := st, lastResumedAt := some now }), true)
  | none => (m, false)

/-- `markResumed(sessionId)`: refresh `lastResumedAt` only when the
record exists. -/
def markResumed (m : SessionTable) (id : String) (now : Int) :
    SessionTable × Bool :=
  match m.lookup id with
  | some _ => (tableModify m id (fun s => { s with lastResumedAt := some now }), true)
  | none => (m, false)

/-- `link(writeSessionId, reviewSessionId)`: each record that exists gets
its lineage pointer set to the other identifier; save runs
unconditionally. -/
def link (m : SessionTable) (writeSessionId reviewSessionId : String) : SessionTable :=
  let m1 :=
    if (m.lookup writeSessionId).isSome then
      tableModify m writeSessionId (fun s => { s with linkedSessionId := some reviewSessionId })
    else m
  if (m1.lookup reviewSessionId).isSome then
    tableModify m1 reviewSessionId (fun s => { s with linkedSessionId := some writeSessionId })
  else m1

/-- `ageHours > maxAgeHours` where
`ageHours = (now - lastActivity) / 3600000`: real division by the
positive constant is order-equivalent to the cross-multiplied form. -/
def cleanupPred (now maxAgeHours : Int) (s : TrackedSession) : Bool :=
  3600000 * maxAgeHours < now - (s.lastResumedAt.getD s.createdAt)

/-- `cleanup(maxAgeHours)` — the spec's `sweep`: collect the identifiers
of every over-age record, delete them, return them.  It touches only the
tracking table, never Codex CLI session directories. -/
def cleanup (m : SessionTable) (maxAgeHours now : Int) :
    List String × SessionTable :=
  let toRemove := (m.filter (fun p => cleanupPred now maxAgeHours p.2)).map (·.1)
  (toRemove, m.filter (fun p => !(toRemove.contains p.1)))

/-! ### Progress Hub (progress-server.ts) -/

/-- `startOperation(operationId, type, description)`. -/
def startOperationEvent (operationId typ description ts : String) : ProgressEvent :=
  ⟨ts, operationId, "start", "[" ++ typ ++ "] " ++ description⟩

/-- `endOperation(operationId, success)`. -/
def endOperationEvent (operationId : String) (success : Bool) (ts : String) : ProgressEvent :=
  ⟨ts, operationId, "end", if success then "completed" else "failed"⟩

/-- Forwarder-role `enqueueIngest`: append, then
`splice(0, length - 2000)` when the queue exceeds 2000 pending events. -/
def enqueueIngest (queue : List ProgressEvent) (event : ProgressEvent) :
    List ProgressEvent :=
  let q := queue ++ [event]
  if q.length > 2000 then q.drop (q.length - 2000) else q

/-! ### Configuration resolution (config.ts) -/

structure ToolConfig where
  enabled : Option Bool := none
  model : Option String := none
  sandbox : Option String := none
  timeout : Option Int := none
deriving DecidableEq, Repr

structure CodexDevConfig where
  model : Option String := none
  sandbox : Option String := none
  timeout : Option Int := none
  tools : List (String × ToolConfig) := []
deriving DecidableEq, Repr

structure ResolvedToolConfig where
  enabled : Bool
  model : Option String
  sandbox : String
  timeout : Option Int
deriving DecidableEq, Repr

/-- `getToolConfig(config, tool)`: per-tool override with `??` fallback to
the global default, and `"danger-full-access"` as the final sandbox
default. -/
def getToolConfig (config : CodexDevConfig) (tool : String) : ResolvedToolConfig :=
  let toolCfg := config.tools.lookup tool
  { enabled := ((toolCfg.bind (·.enabled)).getD true)
    model :=
      match toolCfg.bind (·.model) with
      | some m => some m
      | none => config.model
    sandbox :=
      (match toolCfg.bind (·.sandbox) with
       | some s => some s
       | none => config.sandbox).getD "danger-full-access"
    timeout :=
      match toolCfg.bind (·.timeout) with
      | some t => some t
      | none => config.timeout }

/-- JavaScript `x || y` on an optional string: the empty string is falsy. -/
def jsStrTruthy : Option String → Option String
  | some s => if s = "" then none else some s
  | none => none

structure BuildArgs where
  args : List String
  stdinContent : String
deriving DecidableEq, Repr

/-- `CodexExecutor.buildWriteArgs`: the instruction always travels via
stdin; `--sandbox` is passed only for new sessions, defaulting through
`options.sandbox || this.config.sandbox || "danger-full-access"`. -/
def buildWriteArgs (instruction : String)
    (sessionId model sandbox : Option String)
    (cfgModel cfgSandbox : Option String) : BuildArgs :=
  let args :=
    match jsStrTruthy sessionId with
    | some sid => ["exec", "resume", sid, "-"]
    | none => ["exec", "-"]
  let args := args ++ ["--json"]
  let modelVal : Option String :=
    match jsStrTruthy model with
    | some m => some m
    | none => cfgModel
  let args := args ++
    (match jsStrTruthy modelVal with
     | some m => ["--model", m]
     | none => [])
  let args :=
    match jsStrTruthy sessionId with
    | some _ => args
    | none =>
      let sandboxMode :=
        (match jsStrTruthy sandbox with
         | some s => some s
         | none => jsStrTruthy cfgSandbox).getD "danger-full-access"
      args ++ ["--sandbox", sandboxMode]
  { args, stdinContent := instruction }

/-! ### Executor outcome model (codex-executor.ts)

An `executeWrite`/`executeReview` call either resolves with an
`ExecuteResult` or rejects with a structured `CodexErrorInfo`
(tool-not-found, timeout, abort, spawn failure).  `streamedLines`
records the lines already delivered to `onLine` before a rejection. -/

inductive CodexErrorCode
  | CODEX_NOT_FOUND
  | CODEX_TIMEOUT
  | CODEX_EXECUTION_FAILED
  | CODEX_INVALID_OUTPUT
  | SESSION_NOT_FOUND
  | SESSION_CORRUPTED
  | CONFIG_INVALID
  | GIT_SHA_NOT_FOUND
  | UNKNOWN_ERROR
deriving DecidableEq, Repr

structure CodexErrorInfo where
  code : CodexErrorCode
  message : String
  recoverable : Bool
  suggestion : Option String := none
deriving DecidableEq, Repr

structure ExecuteResult where
  stdout : String
  stderr : String := ""
  exitCode : Option Int          -- node's exit code; none when killed by a signal
deriving DecidableEq, Repr

/-- The nonblank lines of the collected stdout, exactly the lines handed
to `onLine` by the chunk splitter (the trailing partial line is flushed
on exit). -/
def streamedLines (stdout : String) : List String :=
  (splitLines stdout).filter (fun l => strTrim l ≠ "")

inductive ExecOutcome
  | ok (r : ExecuteResult)
  | err (e : CodexErrorInfo) (streamed : List String)
deriving DecidableEq, Repr

/-- The events a tool's `onLine` callback emits: a throwing Normalizer
call is swallowed by the try/catch around `onLine`, a null result is not
emitted. -/
def emittedEvents (lines : List String) (operationId ts : String) :
    List ProgressEvent :=
  lines.filterMap (fun l =>
    match mapCodexLineToProgressEvent l operationId ts with
    | .ok (some e) => some e
    | _ => none)

def outcomeLines : ExecOutcome → List String
  | .ok r => streamedLines r.stdout
  | .err _ ls => ls

/-- `result?.exitCode === 0` in the tool's finally block: false when the
run rejected (result undefined) or the exit code differs from 0. -/
def outcomeEndSuccess : ExecOutcome → Bool
  | .ok r => r.exitCode == some 0
  | .err _ _ => false

/-- The full emission sequence of one tool run for its `operationId`:
`startOperation`, then each `onLine` event in arrival order, then the
`endOperation` in the finally block. -/
def operationTrace (outcome : ExecOutcome) (operationId opType description ts : String) :
    List ProgressEvent :=
  startOperationEvent operationId opType description ts
    :: emittedEvents (outcomeLines outcome) operationId ts
    ++ [endOperationEvent operationId (outcomeEndSuccess outcome) ts]

/-! ### The tool operations (codex-write.ts, codex-tdd.ts, codex-exec.ts,
codex-review.ts)

Each tool is modelled as a function of its parameters and the executor
outcome(s), returning the MCP result, the ordered list of session-store
calls it performs, and its progress-event emission trace. -/

inductive WriteStatus
  | completed
  | needs_review
  | error
deriving DecidableEq, Repr

structure WriteOutput where
  summary : String
  filesModified : List String
  filesCreated : List String
deriving DecidableEq, Repr

structure CodexWriteResult where
  success : Bool
  sessionId : String
  output : WriteOutput
  status : WriteStatus
  error : Option CodexErrorInfo := none
deriving DecidableEq, Repr

inductive SessionAction
  | updateStatus (id : String) (st : SessionStatus)
  | markResumed (id : String)
  | track (s : TrackedSession)
  | linkSessions (a b : String)
deriving DecidableEq, Repr

/-- What a tool's catch block receives: either a thrown `CodexErrorInfo`
object or a JavaScript runtime error. -/
inductive Thrown
  | info (e : CodexErrorInfo)
  | js (e : JsError)
deriving DecidableEq, Repr

/-- JavaScript `x || y` on strings. -/
def jsOrStrD (s d : String) : String := if s = "" then d else s

/-- The catch block's error normalization:
`errorInfo.code || UNKNOWN_ERROR`, `errorInfo.message || String(error)`,
`errorInfo.recoverable ?? false`.  A thrown `CodexErrorInfo` always has a
code and a recoverable flag; a JavaScript `TypeError` has neither, and
`String(error)` on it yields its message text. -/
def thrownToErrorInfo : Thrown → CodexErrorInfo
  | .info e =>
    { code := e.code
      message := jsOrStrD e.message "[object Object]"
      recoverable := e.recoverable
      suggestion := e.suggestion }
  | .js e =>
    { code := .UNKNOWN_ERROR
      message := jsOrStrD e.message "TypeError"
      recoverable := false
      suggestion := none }

def invalidOutputNoSession : CodexErrorInfo :=
  { code := .CODEX_INVALID_OUTPUT
    message := "Codex CLI did not emit a session_id/thread_id in --json output. Ensure Codex CLI is up to date and that --json output is enabled."
    recoverable := false }

def invalidOutputMissingSession : CodexErrorInfo :=
  { code := .CODEX_INVALID_OUTPUT
    message := "Missing sessionId (neither parsed from Codex output nor provided via params.sessionId)."
    recoverable := false }

def invalidOutputNoSessionExec : CodexErrorInfo :=
  { code := .CODEX_INVALID_OUTPUT
    message := "Codex CLI did not return a session ID."
    recoverable := false }

structure WriteParams where
  instruction : String
  sessionId : Option String := none
  planReference : Option String := none
deriving Repr

structure ToolRun where
  result : CodexWriteResult
  actions : List SessionAction
  trace : List ProgressEvent
deriving Repr

/-- The `if (preSessionId) updateStatus(preSessionId, "active")` step
shared by codexWrite / codexTdd / codexExec. -/
def sessionActivePre (sid : Option String) : List SessionAction :=
  match sid with
  | some s => [.updateStatus s .active]
  | none => []

/-- The identical catch block of codexWrite / codexTdd / codexExec:
best-effort `updateStatus(sessionId, "abandoned")` when resuming, then an
error result with empty output. -/
def execToolCatch (sid : Option String) (preActions : List SessionAction)
    (trace : List ProgressEvent) (t : Thrown) : ToolRun :=
  { result :=
      { success := false
        sessionId := sid.getD ""
        output := { summary := "", filesModified := [], filesCreated := [] }
        status := .error
        error := some (thrownToErrorInfo t) }
    actions := preActions ++
      (match sid with
       | some s => [.updateStatus s .abandoned]
       | none => [])
    trace := trace }

/-- `codexWrite(params)` from codex-write.ts.  `outcome` is the result of
`executor.executeWrite`; `operationId` the generated id; `ts` the event
timestamps; `now` the `Date.now()` used by the store calls. -/
def codexWrite (params : WriteParams) (outcome : ExecOutcome)
    (operationId ts : String) (now : Int) : ToolRun :=
  let sid := jsStrTruthy params.sessionId
  let trace := operationTrace outcome operationId "write" (params.instruction.take 120) ts
  let preActions := sessionActivePre sid
  match outcome with
  | .err e _ => execToolCatch sid preActions trace (.info e)
  | .ok r =>
    match parseOutput r.stdout with
    | .error je => execToolCatch sid preActions trace (.js je)
    | .ok parsed =>
      if sid = none ∧ parsed.sessionId = "" then
        execToolCatch sid preActions trace (.info invalidOutputNoSession)
      else
        let status : WriteStatus :=
          if r.exitCode ≠ some 0 then .error
          else if parsed.filesCreated.length > 0 ∨ parsed.filesModified.length > 0 then
            .needs_review
          else .completed
        match jsStrTruthy
            (if parsed.sessionId ≠ "" then some parsed.sessionId else params.sessionId) with
        | none => execToolCatch sid preActions trace (.info invalidOutputMissingSession)
        | some sessionId =>
          let trackedStatus : SessionStatus :=
            if r.exitCode ≠ some 0 then .abandoned else .completed
          let mainActions : List SessionAction :=
            match sid with
            | some s => [.markResumed s, .updateStatus s trackedStatus]
            | none =>
              [.track
                { sessionId
                  type := .write
                  instruction := some params.instruction
                  createdAt := now
                  status := trackedStatus }]
          { result :=
              { success := r.exitCode == some 0
                sessionId
                output :=
                  { summary := parsed.summary
                    filesModified := parsed.filesModified
                    filesCreated := parsed.filesCreated }
                status
                error := none }
            actions := preActions ++ mainActions
            trace := trace }

/-- `codexTdd(params)` from codex-tdd.ts: after template assembly it
follows codex-write.ts step for step (same guards, same tracking with
type "write"). -/
def codexTdd (params : WriteParams) (outcome : ExecOutcome)
    (operationId ts : String) (now : Int) : ToolRun :=
  let sid := jsStrTruthy params.sessionId
  let trace := operationTrace outcome operationId "write" (params.instruction.take 120) ts
  let preActions := sessionActivePre sid
  match outcome with
  | .err e _ => execToolCatch sid preActions trace (.info e)
  | .ok r =>
    match parseOutput r.stdout with
    | .error je => execToolCatch sid preActions trace (.js je)
    | .ok parsed =>
      if sid = none ∧ parsed.sessionId = "" then
        execToolCatch sid preActions trace (.info invalidOutputNoSession)
      else
        let status : WriteStatus :=
          if r.exitCode ≠ some 0 then .error
          else if parsed.filesCreated.length > 0 ∨ parsed.filesModified.length > 0 then
            .needs_review
          else .completed
        match jsStrTruthy
            (if parsed.sessionId ≠ "" then some parsed.sessionId else params.sessionId) with
        | none => execToolCatch sid preActions trace (.info invalidOutputMissingSession)
        | some sessionId =>
          let trackedStatus : SessionStatus :=
            if r.exitCode ≠ some 0 then .abandoned else .completed
          let mainActions : List SessionAction :=
            match sid with
            | some s => [.markResumed s, .updateStatus s trackedStatus]
            | none =>
              [.track
                { sessionId
                  type := .write
                  instruction := some params.instruction
                  createdAt := now
                  status := trackedStatus }]
          { result :=
              { success := r.exitCode == some 0
                sessionId
                output :=
                  { summary := parsed.summary
                    filesModified := parsed.filesModified
                    filesCreated := parsed.filesCreated }
                status
                error := none }
            actions := preActions ++ mainActions
            trace := trace }

structure ExecParams where
  instruction : String
  sessionId : Option String := none
deriving Repr

/-- `codexExec(params)` from codex-exec.ts: like codexWrite but with a
single session-id guard after the `parsed.sessionId || params.sessionId`
fallback, and tracking with type "exec". -/
def codexExec (params : ExecParams) (outcome : ExecOutcome)
    (operationId ts : String) (now : Int) : ToolRun :=
  let sid := jsStrTruthy params.sessionId
  let trace := operationTrace outcome operationId "write" (params.instruction.take 120) ts
  let preActions := sessionActivePre sid
  match outcome with
  | .err e _ => execToolCatch sid preActions trace (.info e)
  | .ok r =>
    match parseOutput r.stdout with
    | .error je => execToolCatch sid preActions trace (.js je)
    | .ok parsed =>
      match jsStrTruthy
          (if parsed.sessionId ≠ "" then some parsed.sessionId else params.sessionId) with
      | none => execToolCatch sid preActions trace (.info invalidOutputNoSessionExec)
      | some sessionId =>
        let trackedStatus : SessionStatus :=
          if r.exitCode ≠ some 0 then SessionStatus.abandoned else .completed
        let mainActions : List SessionAction :=
          match sid with
          | some s => [.markResumed s, .updateStatus s trackedStatus]
          | none =>
            [.track
              { sessionId
                type := .exec
                instruction := some params.instruction
                createdAt := now
                status := trackedStatus }]
        let status : WriteStatus :=
          if r.exitCode ≠ some 0 then .error
          else if parsed.filesCreated.length > 0 ∨ parsed.filesModified.length > 0 then
            .needs_review
          else .completed
        { result :=
            { success := r.exitCode == some 0
              sessionId
              output :=
                { summary := parsed.summary
                  filesModified := parsed.filesModified
                  filesCreated := parsed.filesCreated }
              status
              error := none }
          actions := preActions ++ mainActions
          trace := trace }

/-! ### codexReview (codex-review.ts) -/

structure ReviewParams where
  instruction : String := ""
  whatWasImplemented : String
  baseSha : String
  headSha : Option String := none
  sessionId : Option String := none
  reviewType : Option String := none
deriving Repr

structure CodexReviewResult where
  success : Bool
  sessionId : String
  specSessionId : Option String := none
  qualitySessionId : Option String := none
  review : String
  error : Option CodexErrorInfo := none
deriving DecidableEq, Repr

structure ParsedReviewResult where
  sessionId : String
  exitCode : Option Int
  review : String
deriving DecidableEq, Repr

structure ReviewRun where
  result : CodexReviewResult
  actions : List SessionAction
  trace : List ProgressEvent
deriving Repr

/-- `executeAndParse`: run the review, emit line events and the finally
`endOperation`, reparse the output; a rejection or a parse throw
propagates.  `sid` is the truthiness-normalized `params.sessionId`. -/
def executeAndParse (sid : Option String) (outcome : ExecOutcome)
    (operationId ts : String) :
    Except Thrown ParsedReviewResult × List ProgressEvent :=
  let trace := emittedEvents (outcomeLines outcome) operationId ts
    ++ [endOperationEvent operationId (outcomeEndSuccess outcome) ts]
  match outcome with
  | .err e _ => (.error (.info e), trace)
  | .ok r =>
    match parseOutput r.stdout with
    | .error je => (.error (.js je), trace)
    | .ok parsed =>
      if sid = none ∧ parsed.sessionId = "" then
        (.error (.info invalidOutputNoSession), trace)
      else
        (.ok
          { sessionId :=
              (jsStrTruthy
                (if parsed.sessionId ≠ "" then some parsed.sessionId else sid)).getD ""
            exitCode := r.exitCode
            review := String.intercalate "\n\n" parsed.agentMessages }
        , trace)

/-- `runSingleReview` for type "spec" or "quality" (also the resume
path).  Returns the result or the exception to be caught in codexReview,
together with the store calls made so far and the emission trace. -/
def runSingleReview (params : ReviewParams) (outcome : ExecOutcome)
    (rType : String) (operationId ts : String) (now : Int) :
    Except Thrown CodexReviewResult × List SessionAction × List ProgressEvent :=
  let sid := jsStrTruthy params.sessionId
  let startEvt := startOperationEvent operationId "review"
    ("[" ++ rType ++ "] " ++ params.whatWasImplemented.take 100) ts
  let preActions := sessionActivePre sid
  let ep := executeAndParse sid outcome operationId ts
  let trace := startEvt :: ep.2
  match ep.1 with
  | .error t => (.error t, preActions, trace)
  | .ok parsed =>
    match jsStrTruthy
        (if parsed.sessionId ≠ "" then some parsed.sessionId else sid) with
    | none => (.error (.info invalidOutputMissingSession), preActions, trace)
    | some sessionId =>
      let finalStatus : SessionStatus :=
        if parsed.exitCode == some 0 then .completed else .abandoned
      let acts : List SessionAction :=
        match sid with
        | some s => [.markResumed s, .updateStatus s finalStatus]
        | none =>
          [.track
            { sessionId
              type := .review
              baseSha := some params.baseSha
              headSha := some ((jsStrTruthy params.headSha).getD "HEAD")
              createdAt := now
              status := finalStatus }]
      (.ok { success := parsed.exitCode == some 0, sessionId, review := parsed.review }
      , preActions ++ acts, trace)

/-- `runFullReview`: spec and quality reviews run concurrently; the model
lists the spec run's line events before the quality run's (their real
interleaving is arbitrary), and a rejection of either — the spec one
first, mirroring `Promise.all`'s first-rejection semantics in list
order — propagates to codexReview's catch. -/
def runFullReview (params : ReviewParams) (outSpec outQuality : ExecOutcome)
    (opSpec opQuality ts : String) (now : Int) :
    Except Thrown CodexReviewResult × List SessionAction × List ProgressEvent :=
  let startSpec := startOperationEvent opSpec "review"
    ("[spec] " ++ params.whatWasImplemented.take 100) ts
  let startQ := startOperationEvent opQuality "review"
    ("[quality] " ++ params.whatWasImplemented.take 100) ts
  let sid := jsStrTruthy params.sessionId
  let epS := executeAndParse sid outSpec opSpec ts
  let epQ := executeAndParse sid outQuality opQuality ts
  let trace := startSpec :: startQ :: (epS.2 ++ epQ.2)
  match epS.1, epQ.1 with
  | .error t, _ => (.error t, [], trace)
  | _, .error t => (.error t, [], trace)
  | .ok sR, .ok qR =>
    let mkTrack := fun (r : ParsedReviewResult) =>
      SessionAction.track
        { sessionId := r.sessionId
          type := .review
          baseSha := some params.baseSha
          headSha := some ((jsStrTruthy params.headSha).getD "HEAD")
          createdAt := now
          status := if r.exitCode == some 0 then .completed else .abandoned }
    let trackActs := ([sR, qR].filter (fun r => r.sessionId ≠ "")).map mkTrack
    let ids := ([sR, qR].filter (fun r => r.sessionId ≠ "")).map (·.sessionId)
    let linkActs : List SessionAction :=
      match ids with
      | [a, b] => [.linkSessions a b]
      | _ => []
    let review := String.intercalate "\n"
      ["## Spec Compliance Review\n", jsOrStrD sR.review "(no output)",
       "\n\n---\n\n## Code Quality Review\n", jsOrStrD qR.review "(no output)"]
    (.ok
      { success := (sR.exitCode == some 0) && (qR.exitCode == some 0)
        sessionId := ""
        specSessionId := jsStrTruthy (some sR.sessionId)
        qualitySessionId := jsStrTruthy (some qR.sessionId)
        review }
    , trackActs ++ linkActs, trace)

/-- `codexReview(params)`: dispatch on sessionId/reviewType, with the
top-level catch producing the error result and the best-effort
`updateStatus(sessionId, "abandoned")`.  The single-review paths use
`outSpec` as their one executor outcome. -/
def codexReview (params : ReviewParams) (outSpec outQuality : ExecOutcome)
    (opSpec opQuality ts : String) (now : Int) : ReviewRun :=
  let sid := jsStrTruthy params.sessionId
  let reviewType := (jsStrTruthy params.reviewType).getD "full"
  let inner :=
    if sid.isSome then
      runSingleReview params outSpec
        (if reviewType = "spec" then "spec" else "quality") opSpec ts now
    else if reviewType = "spec" then
      runSingleReview params outSpec "spec" opSpec ts now
    else if reviewType = "quality" then
      runSingleReview params outSpec "quality" opSpec ts now
    else
      runFullReview params outSpec outQuality opSpec opQuality ts now
  match inner with
  | (.ok res, acts, tr) => { result := res, actions := acts, trace := tr }
  | (.error t, acts, tr) =>
    { result :=
        { success := false
          sessionId := sid.getD ""
          review := ""
          error := some (thrownToErrorInfo t) }
      actions := acts ++
        (match sid with
         | some s => [.updateStatus s .abandoned]
         | none => [])
      trace := tr }

/-! ## Store lemmas -/

theorem lookup_tableModify (m : SessionTable) (id k : String)
    (f : TrackedSession → TrackedSession) :
    (tableModify m id f).lookup k =
      if k = id then (m.lookup k).map f else m.lookup k := by
  induction m with
  | nil => simp [tableModify]
  | cons hd tl ih =>
    obtain ⟨hk, hv⟩ := hd
    simp only [tableModify]
    by_cases h1 : hk = id
    · rw [if_pos h1]
      by_cases h2 : k = hk
      · have hb : (k == hk) = true := by simp [h2]
        have hki : k = id := h2.trans h1
        rw [if_pos hki]
        simp [List.lookup, hb]
      · have hb : (k == hk) = false := by simp [h2]
        simp only [List.lookup, hb]
        exact ih
    · rw [if_neg h1]
      by_cases h2 : k = hk
      · have hb : (k == hk) = true := by simp [h2]
        have hki : ¬ k = id := fun h => h1 ((h2.symm.trans h))
        rw [if_neg hki]
        simp [List.lookup, hb]
      · have hb : (k == hk) = false := by simp [h2]
        simp only [List.lookup, hb]
        exact ih

theorem lookup_append_single (m : SessionTable) (k : String) (v : TrackedSession)
    (h : m.lookup k = none) : (m ++ [(k, v)]).lookup k = some v := by
  induction m with
  | nil => simp [List.lookup]
  | cons hd tl ih =>
    obtain ⟨hk, hv⟩ := hd
    have hb : (k == hk) = false := by
      cases hx : (k == hk) with
      | false => rfl
      | true => simp [List.lookup, hx] at h
    simp only [List.cons_append, List.lookup, hb] at h ⊢
    exact ih h

theorem lookup_append_single_ne (m : SessionTable) (k : String) (v : TrackedSession)
    (k' : String) (h : k' ≠ k) : (m ++ [(k, v)]).lookup k' = m.lookup k' := by
  induction m with
  | nil =>
    have hb : (k' == k) = false := by simp [h]
    simp [List.lookup, hb]
  | cons hd tl ih =>
    obtain ⟨hk, hv⟩ := hd
    cases hx : (k' == hk) with
    | true => simp only [List.cons_append, List.lookup, hx]
    | false =>
      simp only [List.cons_append, List.lookup, hx]
      exact ih

theorem lookup_tableSet (m : SessionTable) (k : String) (v : TrackedSession)
    (k' : String) :
    (tableSet m k v).lookup k' = if k' = k then some v else m.lookup k' := by
  unfold tableSet
  by_cases h : (m.lookup k).isSome
  · rw [if_pos h, lookup_tableModify]
    by_cases h2 : k' = k
    · subst h2
      rw [if_pos rfl, if_pos rfl]
      obtain ⟨w, hw⟩ := Option.isSome_iff_exists.mp h
      rw [hw]
      rfl
    · rw [if_neg h2, if_neg h2]
  · rw [if_neg h]
    have hn : m.lookup k = none := Option.not_isSome_iff_eq_none.mp h
    by_cases h2 : k' = k
    · subst h2
      rw [if_pos rfl, lookup_append_single m k' v hn]
    · rw [if_neg h2, lookup_append_single_ne m k v k' h2]

theorem lookup_track_self (m : SessionTable) (s : TrackedSession) :
    (track m s).lookup s.sessionId = some s := by
  unfold track
  rw [lookup_tableSet, if_pos rfl]

/-- C6: after every forwarder-role emit, the pending ingest queue is the
suffix of the enqueued sequence that keeps the most recent 2000 events —
so the queue never exceeds 2000 entries and any discarded events are
exactly the oldest ones. -/
theorem enqueueIngest_bounded_drops_oldest (q : List ProgressEvent) (e : ProgressEvent) :
    enqueueIngest q e = (q ++ [e]).drop (q.length + 1 - 2000) ∧
    (enqueueIngest q e).length ≤ 2000 := by
  have hlen : (q ++ [e]).length = q.length + 1 := by simp
  by_cases h : (q ++ [e]).length > 2000
  · have h2 : enqueueIngest q e = (q ++ [e]).drop ((q ++ [e]).length - 2000) := by
      simp only [enqueueIngest, if_pos h]
    refine ⟨by rw [h2, hlen], ?_⟩
    rw [h2, List.length_drop, hlen]
    omega
  · have h2 : enqueueIngest q e = q ++ [e] := by
      simp only [enqueueIngest, if_neg h]
    rw [hlen] at h
    refine ⟨?_, by rw [h2, hlen]; omega⟩
    rw [h2]
    have h0 : q.length + 1 - 2000 = 0 := by omega
    rw [h0, List.drop_zero]

/-! ## C7 — sweep idempotence -/

/-- C7: running `cleanup` twice in a row (same threshold, same clock
reading) removes nothing the second time and leaves the table unchanged. -/
theorem cleanup_idempotent (m : SessionTable) (maxAgeHours now : Int) :
    cleanup (cleanup m maxAgeHours now).2 maxAgeHours now =
      ([], (cleanup m maxAgeHours now).2) := by
  unfold cleanup
  set P : String × TrackedSession → Bool := fun p => cleanupPred now maxAgeHours p.2 with hP
  set toRemove := (m.filter P).map (·.1) with hR
  set m1 := m.filter (fun p => !(toRemove.contains p.1)) with hm1
  have hnone : ∀ p ∈ m1, ¬ (P p = true) := by
    intro p hp hPp
    have hmem := List.mem_filter.mp hp
    have hin : p.1 ∈ toRemove := by
      rw [hR]
      exact List.mem_map.mpr ⟨p, List.mem_filter.mpr ⟨hmem.1, hPp⟩, rfl⟩
    have hcon := hmem.2
    simp only [Bool.not_eq_true', List.contains, List.elem_eq_mem,
      decide_eq_false_iff_not] at hcon
    exact hcon hin
  have hfilter : m1.filter P = [] := by
    rw [List.filter_eq_nil_iff]
    intro p hp
    exact hnone p hp
  simp only [hfilter, List.map_nil]
  congr 1
  rw [List.filter_eq_self]
  intro p _
  rfl

/-! ## C9 — updateStatus / markResumed on an absent session -/

/-- C9: `updateStatus` and `markResumed` on a session identifier absent
from the store leave the table unchanged, perform no disk write, and
return normally (no session-not-found error exists on this path). -/
theorem absent_session_update_noop (m : SessionTable) (id : String)
    (st : SessionStatus) (now : Int) (h : m.lookup id = none) :
    updateStatus m id st now = (m, false) ∧ markResumed m id now = (m, false) := by
  constructor <;> simp [updateStatus, markResumed, h]

def sampleSession : TrackedSession :=
  { sessionId := "a", type := .write, createdAt := 0, status := .completed }

def sampleTable : SessionTable := [("a", sampleSession)]

/-- C9 witness: a concrete store holding only "a"; updating "b" is a
no-op. -/
theorem absent_session_update_noop_witness :
    updateStatus sampleTable "b" .abandoned 5 = (sampleTable, false) ∧
    markResumed sampleTable "b" 5 = (sampleTable, false) :=
  absent_session_update_noop sampleTable "b" .abandoned 5 (by decide)

/-! ## C10 — one-sided link -/

/-- C10: when exactly one of the two identifiers exists, `link` still
sets that record's lineage pointer to the absent identifier, leaving a
dangling, one-directional pairing — whether the existing record is the
first argument (the write-session update branch fires alone) or the
second (the review-session update branch fires alone). -/
theorem link_one_sided (m : SessionTable) (a b : String) (s : TrackedSession)
    (ha : m.lookup a = some s) (hb : m.lookup b = none) :
    ((link m a b).lookup a = some { s with linkedSessionId := some b } ∧
      (link m a b).lookup b = none) ∧
    ((link m b a).lookup a = some { s with linkedSessionId := some b } ∧
      (link m b a).lookup b = none) := by
  have hne : b ≠ a := by
    intro h
    rw [h, ha] at hb
    cases hb
  have hm1b :
      (tableModify m a (fun s => { s with linkedSessionId := some b })).lookup b = none := by
    rw [lookup_tableModify, if_neg hne, hb]
  constructor
  · -- link a b: only the first (write-session) branch fires
    have key : link m a b =
        tableModify m a (fun s => { s with linkedSessionId := some b }) := by
      simp [link, ha, hm1b]
    rw [key]
    refine ⟨?_, hm1b⟩
    rw [lookup_tableModify, if_pos rfl, ha]
    rfl
  · -- link b a: only the second (review-session) branch fires
    have key : link m b a =
        tableModify m a (fun s => { s with linkedSessionId := some b }) := by
      simp [link, ha, hb]
    rw [key]
    refine ⟨?_, hm1b⟩
    rw [lookup_tableModify, if_pos rfl, ha]
    rfl

/-- C10 witness: a one-record store; linking "a" with the absent "b", in
either argument order, leaves a dangling pointer on "a" and no record
for "b". -/
theorem link_one_sided_witness :
    ((link sampleTable "a" "b").lookup "a" =
        some { sampleSession with linkedSessionId := some "b" } ∧
      (link sampleTable "a" "b").lookup "b" = none) ∧
    ((link sampleTable "b" "a").lookup "a" =
        some { sampleSession with linkedSessionId := some "b" } ∧
      (link sampleTable "b" "a").lookup "b" = none) :=
  link_one_sided sampleTable "a" "b" sampleSession (by decide) (by decide)

/-! ## C8 — default sandbox level -/

/-- C8: when neither the per-tool nor the global configuration sets a
sandbox level, a new (non-resumed) run resolves to and passes
`--sandbox danger-full-access` to the external tool. -/
theorem default_sandbox_full_access (config : CodexDevConfig)
    (tool instruction : String)
    (h1 : (config.tools.lookup tool).bind (·.sandbox) = none)
    (h2 : config.sandbox = none) :
    (getToolConfig config tool).sandbox = "danger-full-access" ∧
    ["--sandbox", "danger-full-access"] <:+
      (buildWriteArgs instruction none (getToolConfig config tool).model
        (some (getToolConfig config tool).sandbox) config.model config.sandbox).args := by
  have hs : (getToolConfig config tool).sandbox = "danger-full-access" := by
    simp [getToolConfig, h1, h2]
  refine ⟨hs, ?_⟩
  rw [hs]
  simp only [buildWriteArgs, jsStrTruthy]
  exact List.suffix_append _ _

/-- C8 witness: the empty configuration resolves a new codex_write run to
danger-full-access. -/
theorem default_sandbox_full_access_witness :
    (getToolConfig {} "codex_write").sandbox = "danger-full-access" ∧
    ["--sandbox", "danger-full-access"] <:+
      (buildWriteArgs "do it" none (getToolConfig {} "codex_write").model
        (some (getToolConfig {} "codex_write").sandbox)
        (CodexDevConfig.model {}) (CodexDevConfig.sandbox {})).args :=
  default_sandbox_full_access {} "codex_write" "do it" (by rfl) (by rfl)

/-! ## C3 — the Normalizer can throw -/

/-- An old-format assistant message whose `content` is a plain string:
not a recognized shape (the old format carries an array of typed
blocks), so per the design it should be ignored. -/
def assistantStringContentLine : String :=
  "\x7b\"type\":\"item.completed\",\"item\":\x7b\"role\":\"assistant\",\"content\":\"x\"\x7d\x7d"

/-- C3: the Normalizer does not ignore every unrecognized shape — on an
assistant item whose `content` is a truthy non-array, `content.map`
raises a TypeError instead of returning null, contradicting the
function's own contract ("Returns null if the line isn't a recognized
event"). -/
theorem normalizer_throws_on_assistant_string_content :
    mapCodexLineToProgressEvent assistantStringContentLine "op" "t" =
      .error typeError := rfl

/-! ## C5 — summary derivation -/

def countStarts (tr : List ProgressEvent) : Nat :=
  (tr.filter (fun e => e.type == "start")).length

def countTerminals (tr : List ProgressEvent) : Nat :=
  (tr.filter (fun e => e.type == "end" || e.type == "error")).length

/-- The claimed discipline: the sequence opens with exactly one start
event. -/
def beginsWithExactlyOneStart (tr : List ProgressEvent) : Prop :=
  tr.head?.map ProgressEvent.type = some "start" ∧ countStarts tr = 1

/-- The claimed discipline: at most one terminal (end or error) event. -/
def atMostOneTerminal (tr : List ProgressEvent) : Prop :=
  countTerminals tr ≤ 1

/-- The trace of a tool run is the operation trace it emits, on every
path (the start event precedes the executor call, the finally block's
end event follows it even on failure). -/
theorem codexWrite_trace (params : WriteParams) (outcome : ExecOutcome)
    (operationId ts : String) (now : Int) :
    (codexWrite params outcome operationId ts now).trace =
      operationTrace outcome operationId "write" (params.instruction.take 120) ts := by
  cases outcome with
  | err e ls => simp [codexWrite, execToolCatch]
  | ok r =>
    cases hp : parseOutput r.stdout with
    | error je => simp [codexWrite, execToolCatch, hp]
    | ok parsed =>
      simp only [codexWrite, hp]
      split
      · rfl
      · split <;> rfl

theorem codexTdd_trace (params : WriteParams) (outcome : ExecOutcome)
    (operationId ts : String) (now : Int) :
    (codexTdd params outcome operationId ts now).trace =
      operationTrace outcome operationId "write" (params.instruction.take 120) ts := by
  cases outcome with
  | err e ls => simp [codexTdd, execToolCatch]
  | ok r =>
    cases hp : parseOutput r.stdout with
    | error je => simp [codexTdd, execToolCatch, hp]
    | ok parsed =>
      simp only [codexTdd, hp]
      split
      · rfl
      · split <;> rfl

theorem codexExec_trace (params : ExecParams) (outcome : ExecOutcome)
    (operationId ts : String) (now : Int) :
    (codexExec params outcome operationId ts now).trace =
      operationTrace outcome operationId "write" (params.instruction.take 120) ts := by
  cases outcome with
  | err e ls => simp [codexExec, execToolCatch]
  | ok r =>
    cases hp : parseOutput r.stdout with
    | error je => simp [codexExec, execToolCatch, hp]
    | ok parsed =>
      simp only [codexExec, hp]
      split <;> rfl

/-- Every event the Normalizer produces carries the operationId it was
called with. -/
theorem mapCompletedItem_operationId (event : Json) (operationId now : String)
    (e : ProgressEvent) (h : mapCompletedItem event operationId now = .ok (some e)) :
    e.operationId = operationId := by
  simp only [mapCompletedItem, Bind.bind, Except.bind] at h
  repeat' split at h
  all_goals first
    | (injection h with h2; injection h2 with h3; subst h3; rfl)
    | simp_all

theorem mapCodexLineToProgressEvent_operationId (line operationId now : String)
    (e : ProgressEvent)
    (h : mapCodexLineToProgressEvent line operationId now = .ok (some e)) :
    e.operationId = operationId := by
  simp only [mapCodexLineToProgressEvent] at h
  repeat' split at h
  all_goals first
    | exact mapCompletedItem_operationId _ _ _ _ h
    | (injection h with h2; injection h2 with h3; subst h3; rfl)
    | simp_all

theorem emittedEvents_operationId (lines : List String) (operationId ts : String)
    (e : ProgressEvent) (h : e ∈ emittedEvents lines operationId ts) :
    e.operationId = operationId := by
  unfold emittedEvents at h
  obtain ⟨l, hl, hf⟩ := List.mem_filterMap.mp h
  split at hf
  · rename_i heq
    injection hf with h2
    subst h2
    exact mapCodexLineToProgressEvent_operationId _ _ _ _ heq
  · cases hf

/-- The trace filtered to one operationId: the Progress events a viewer
attributes to that operation. -/
def opFiltered (tr : List ProgressEvent) (operationId : String) : List ProgressEvent :=
  tr.filter (fun e => e.operationId == operationId)

/-- A per-operation sequence that opens with a start event and closes
with an end event. -/
def bracketed (tr : List ProgressEvent) : Prop :=
  tr.head?.map ProgressEvent.type = some "start" ∧
  tr.getLast?.map ProgressEvent.type = some "end"

theorem getLast?_type_concat (l : List ProgressEvent) (e : ProgressEvent) :
    ((l ++ [e]).getLast?).map ProgressEvent.type = some e.type := by
  rw [List.getLast?_concat]
  rfl

theorem mem_epTrace_operationId (lines : List String) (operationId ts : String)
    (success : Bool) (e : ProgressEvent)
    (h : e ∈ emittedEvents lines operationId ts ++
      [endOperationEvent operationId success ts]) :
    e.operationId = operationId := by
  rcases List.mem_append.mp h with h1 | h2
  · exact emittedEvents_operationId _ _ _ _ h1
  · rw [List.mem_singleton.mp h2]
    rfl

theorem filter_epTrace_self (lines : List String) (operationId ts : String)
    (success : Bool) :
    (emittedEvents lines operationId ts ++
      [endOperationEvent operationId success ts]).filter
        (fun e => e.operationId == operationId) =
      emittedEvents lines operationId ts ++
        [endOperationEvent operationId success ts] := by
  rw [List.filter_eq_self]
  intro a ha
  have := mem_epTrace_operationId _ _ _ _ _ ha
  simp [this]

theorem filter_epTrace_ne (lines : List String) (operationId ts : String)
    (success : Bool) (x : String) (hne : operationId ≠ x) :
    (emittedEvents lines operationId ts ++
      [endOperationEvent operationId success ts]).filter
        (fun e => e.operationId == x) = [] := by
  rw [List.filter_eq_nil_iff]
  intro a ha
  have := mem_epTrace_operationId _ _ _ _ _ ha
  simp [this, hne]

/-- A single-operation emission sequence is bracketed after filtering to
its own id (the filter keeps everything). -/
theorem opFiltered_single_bracketed (lines : List String) (success : Bool)
    (operationId typ desc ts : String) :
    bracketed (opFiltered
      (startOperationEvent operationId typ desc ts ::
        emittedEvents lines operationId ts ++
          [endOperationEvent operationId success ts])
      operationId) := by
  have hself : opFiltered
      (startOperationEvent operationId typ desc ts ::
        emittedEvents lines operationId ts ++
          [endOperationEvent operationId success ts])
      operationId =
      startOperationEvent operationId typ desc ts ::
        emittedEvents lines operationId ts ++
          [endOperationEvent operationId success ts] := by
    unfold opFiltered
    rw [List.filter_eq_self]
    intro a ha
    rcases List.mem_append.mp ha with h1 | h2
    · rcases List.mem_cons.mp h1 with h0 | h3
      · subst h0
        simp [startOperationEvent]
      · have := emittedEvents_operationId _ _ _ _ h3
        simp [this]
    · rw [List.mem_singleton.mp h2]
      simp [endOperationEvent]
  rw [hself]
  exact ⟨rfl, getLast?_type_concat _ _⟩

/-- The full-review emission: both operations' filtered sequences are
bracketed, whether or not the two generated ids coincide. -/
theorem opFiltered_full_bracketed (lsS lsQ : List String) (sS sQ : Bool)
    (opS opQ dS dQ ts : String) :
    bracketed (opFiltered
      (startOperationEvent opS "review" dS ts ::
        startOperationEvent opQ "review" dQ ts ::
        ((emittedEvents lsS opS ts ++ [endOperationEvent opS sS ts]) ++
          (emittedEvents lsQ opQ ts ++ [endOperationEvent opQ sQ ts])))
      opS) ∧
    bracketed (opFiltered
      (startOperationEvent opS "review" dS ts ::
        startOperationEvent opQ "review" dQ ts ::
        ((emittedEvents lsS opS ts ++ [endOperationEvent opS sS ts]) ++
          (emittedEvents lsQ opQ ts ++ [endOperationEvent opQ sQ ts])))
      opQ) := by
  by_cases hq : opQ = opS
  · subst hq
    have hb : bracketed (opFiltered
        (startOperationEvent opQ "review" dS ts ::
          startOperationEvent opQ "review" dQ ts ::
          ((emittedEvents lsS opQ ts ++ [endOperationEvent opQ sS ts]) ++
            (emittedEvents lsQ opQ ts ++ [endOperationEvent opQ sQ ts])))
        opQ) := by
      have hself : opFiltered
          (startOperationEvent opQ "review" dS ts ::
            startOperationEvent opQ "review" dQ ts ::
            ((emittedEvents lsS opQ ts ++ [endOperationEvent opQ sS ts]) ++
              (emittedEvents lsQ opQ ts ++ [endOperationEvent opQ sQ ts])))
          opQ =
          startOperationEvent opQ "review" dS ts ::
            startOperationEvent opQ "review" dQ ts ::
            ((emittedEvents lsS opQ ts ++ [endOperationEvent opQ sS ts]) ++
              (emittedEvents lsQ opQ ts ++ [endOperationEvent opQ sQ ts])) := by
        unfold opFiltered
        rw [List.filter_eq_self]
        intro a ha
        rcases List.mem_cons.mp ha with h0 | ha2
        · subst h0
          simp [startOperationEvent]
        · rcases List.mem_cons.mp ha2 with h0 | ha3
          · subst h0
            simp [startOperationEvent]
          · rcases List.mem_append.mp ha3 with h4 | h5
            · have := mem_epTrace_operationId _ _ _ _ _ h4
              simp [this]
            · have := mem_epTrace_operationId _ _ _ _ _ h5
              simp [this]
      rw [hself]
      refine ⟨rfl, ?_⟩
      rw [← List.append_assoc]
      exact getLast?_type_concat
        (startOperationEvent opQ "review" dS ts ::
          startOperationEvent opQ "review" dQ ts ::
          ((emittedEvents lsS opQ ts ++ [endOperationEvent opQ sS ts]) ++
            emittedEvents lsQ opQ ts))
        (endOperationEvent opQ sQ ts)
    exact ⟨hb, hb⟩
  · have hsq : opS ≠ opQ := fun h => hq h.symm
    constructor
    · have hcalc : opFiltered
          (startOperationEvent opS "review" dS ts ::
            startOperationEvent opQ "review" dQ ts ::
            ((emittedEvents lsS opS ts ++ [endOperationEvent opS sS ts]) ++
              (emittedEvents lsQ opQ ts ++ [endOperationEvent opQ sQ ts])))
          opS =
          startOperationEvent opS "review" dS ts ::
            (emittedEvents lsS opS ts ++ [endOperationEvent opS sS ts]) := by
        unfold opFiltered
        rw [List.filter_cons_of_pos (by simp [startOperationEvent]),
          List.filter_cons_of_neg (by simp [startOperationEvent, hq]),
          List.filter_append, filter_epTrace_self,
          filter_epTrace_ne _ _ _ _ _ hq, List.append_nil]
      rw [hcalc]
      exact ⟨rfl, getLast?_type_concat
        (startOperationEvent opS "review" dS ts :: emittedEvents lsS opS ts)
        (endOperationEvent opS sS ts)⟩
    · have hcalc : opFiltered
          (startOperationEvent opS "review" dS ts ::
            startOperationEvent opQ "review" dQ ts ::
            ((emittedEvents lsS opS ts ++ [endOperationEvent opS sS ts]) ++
              (emittedEvents lsQ opQ ts ++ [endOperationEvent opQ sQ ts])))
          opQ =
          startOperationEvent opQ "review" dQ ts ::
            (emittedEvents lsQ opQ ts ++ [endOperationEvent opQ sQ ts]) := by
        unfold opFiltered
        rw [List.filter_cons_of_neg (by simp [startOperationEvent, hsq]),
          List.filter_cons_of_pos (by simp [startOperationEvent]),
          List.filter_append, filter_epTrace_ne _ _ _ _ _ hsq,
          filter_epTrace_self, List.nil_append]
      rw [hcalc]
      exact ⟨rfl, getLast?_type_concat
        (startOperationEvent opQ "review" dQ ts :: emittedEvents lsQ opQ ts)
        (endOperationEvent opQ sQ ts)⟩

theorem executeAndParse_snd (sid : Option String) (outcome : ExecOutcome)
    (opId ts : String) :
    (executeAndParse sid outcome opId ts).2 =
      emittedEvents (outcomeLines outcome) opId ts ++
        [endOperationEvent opId (outcomeEndSuccess outcome) ts] := by
  cases outcome with
  | err e ls => rfl
  | ok r =>
    cases hp : parseOutput r.stdout with
    | error je => simp [executeAndParse, hp]
    | ok parsed =>
      simp only [executeAndParse, hp]
      split <;> rfl

theorem runSingleReview_trace_eq (params : ReviewParams) (outcome : ExecOutcome)
    (rType opId ts : String) (now : Int) :
    (runSingleReview params outcome rType opId ts now).2.2 =
      startOperationEvent opId "review"
        ("[" ++ rType ++ "] " ++ params.whatWasImplemented.take 100) ts ::
        (executeAndParse (jsStrTruthy params.sessionId) outcome opId ts).2 := by
  simp only [runSingleReview]
  split
  · rfl
  · split <;> rfl

theorem runFullReview_trace_eq (params : ReviewParams) (outS outQ : ExecOutcome)
    (opS opQ ts : String) (now : Int) :
    (runFullReview params outS outQ opS opQ ts now).2.2 =
      startOperationEvent opS "review"
        ("[spec] " ++ params.whatWasImplemented.take 100) ts ::
        startOperationEvent opQ "review"
          ("[quality] " ++ params.whatWasImplemented.take 100) ts ::
        ((executeAndParse (jsStrTruthy params.sessionId) outS opS ts).2 ++
          (executeAndParse (jsStrTruthy params.sessionId) outQ opQ ts).2) := by
  simp only [runFullReview]
  repeat' split
  all_goals rfl

theorem codexReview_trace_eq (params : ReviewParams) (outS outQ : ExecOutcome)
    (opS opQ ts : String) (now : Int) :
    (codexReview params outS outQ opS opQ ts now).trace =
      (if (jsStrTruthy params.sessionId).isSome = true then
        runSingleReview params outS
          (if (jsStrTruthy params.reviewType).getD "full" = "spec" then "spec"
           else "quality")
          opS ts now
      else if (jsStrTruthy params.reviewType).getD "full" = "spec" then
        runSingleReview params outS "spec" opS ts now
      else if (jsStrTruthy params.reviewType).getD "full" = "quality" then
        runSingleReview params outS "quality" opS ts now
      else runFullReview params outS outQ opS opQ ts now).2.2 := by
  simp only [codexReview]
  split
  all_goals
    rename_i heq
    exact congrArg (fun x => x.2.2) heq.symm

/-- C2 (amended): for every run of every tool operation, the Progress
events emitted for one of the run's operationIds — the emission trace
filtered to that id — begin with a start event and end with an end
event; but between them further start events (a thread.started line maps
to start) and further end events (a turn.completed line maps to end) may
occur, so "exactly one start, at most one terminal" does not hold.  For
codexReview the dispatched spec-side operation is covered on every path,
and a full review's two concurrent operations are each covered. -/
theorem tool_trace_per_operation_bracketing
    (pw : WriteParams) (ow : ExecOutcome) (opw tsw : String) (n1 : Int)
    (pt : WriteParams) (ot : ExecOutcome) (opt tst : String) (n2 : Int)
    (pe : ExecParams) (oe : ExecOutcome) (ope tse : String) (n3 : Int)
    (pr : ReviewParams) (ors orq : ExecOutcome) (ops opq tsr : String) (n4 : Int) :
    bracketed (opFiltered (codexWrite pw ow opw tsw n1).trace opw) ∧
    bracketed (opFiltered (codexTdd pt ot opt tst n2).trace opt) ∧
    bracketed (opFiltered (codexExec pe oe ope tse n3).trace ope) ∧
    bracketed (opFiltered (codexReview pr ors orq ops opq tsr n4).trace ops) ∧
    bracketed (opFiltered (runFullReview pr ors orq ops opq tsr n4).2.2 ops) ∧
    bracketed (opFiltered (runFullReview pr ors orq ops opq tsr n4).2.2 opq) := by
  refine ⟨?_, ?_, ?_, ?_, ?_, ?_⟩
  · rw [codexWrite_trace]
    exact opFiltered_single_bracketed (outcomeLines ow) (outcomeEndSuccess ow) _ _ _ _
  · rw [codexTdd_trace]
    exact opFiltered_single_bracketed (outcomeLines ot) (outcomeEndSuccess ot) _ _ _ _
  · rw [codexExec_trace]
    exact opFiltered_single_bracketed (outcomeLines oe) (outcomeEndSuccess oe) _ _ _ _
  · rw [codexReview_trace_eq]
    split_ifs <;>
      first
        | (rw [runSingleReview_trace_eq, executeAndParse_snd]
           exact opFiltered_single_bracketed _ _ _ _ _ _)
        | (rw [runFullReview_trace_eq, executeAndParse_snd, executeAndParse_snd]
           exact (opFiltered_full_bracketed _ _ _ _ _ _ _ _ _).1)
  · rw [runFullReview_trace_eq, executeAndParse_snd, executeAndParse_snd]
    exact (opFiltered_full_bracketed _ _ _ _ _ _ _ _ _).1
  · rw [runFullReview_trace_eq, executeAndParse_snd, executeAndParse_snd]
    exact (opFiltered_full_bracketed _ _ _ _ _ _ _ _ _).2

def threadStartedLine : String :=
  "\x7b\"type\":\"thread.started\",\"session_id\":\"s1\"\x7d"

def turnCompletedLine : String := "\x7b\"type\":\"turn.completed\"\x7d"

/-- An ordinary successful run: the tool emits a thread-start notice and
a turn-completion notice, both mapped and re-emitted under the same
operationId as the synthetic start/end pair. -/
def dupTraceRun : ToolRun :=
  codexWrite { instruction := "x" }
    (.ok { stdout := threadStartedLine ++ "\n" ++ turnCompletedLine, exitCode := some 0 })
    "op" "t" 0

/-- C2 counterexample: that run's sequence holds two start events and two
terminal events, refuting "exactly one start, at most one terminal". -/
theorem trace_duplicate_start_and_terminal :
    countStarts dupTraceRun.trace = 2 ∧ countTerminals dupTraceRun.trace = 2 ∧
    ¬ beginsWithExactlyOneStart dupTraceRun.trace ∧
    ¬ atMostOneTerminal dupTraceRun.trace := by
  have h1 : countStarts dupTraceRun.trace = 2 := rfl
  have h2 : countTerminals dupTraceRun.trace = 2 := rfl
  refine ⟨h1, h2, ?_, ?_⟩
  · intro h
    have := h.2
    rw [h1] at this
    exact absurd this (by decide)
  · intro h
    unfold atMostOneTerminal at h
    rw [h2] at h
    exact absurd h (by decide)

/-! ## C1 — success flag and structured error pairing -/

theorem codexWrite_error_flag (params : WriteParams) (outcome : ExecOutcome)
    (opId ts : String) (now : Int) :
    ((codexWrite params outcome opId ts now).result.error.isSome &&
      (codexWrite params outcome opId ts now).result.success) = false := by
  cases outcome with
  | err e ls => simp [codexWrite, execToolCatch]
  | ok r =>
    cases hp : parseOutput r.stdout with
    | error je => simp [codexWrite, execToolCatch, hp]
    | ok parsed =>
      simp only [codexWrite, hp]
      split
      · simp [execToolCatch]
      · split
        · simp [execToolCatch]
        · simp

theorem codexTdd_error_flag (params : WriteParams) (outcome : ExecOutcome)
    (opId ts : String) (now : Int) :
    ((codexTdd params outcome opId ts now).result.error.isSome &&
      (codexTdd params outcome opId ts now).result.success) = false := by
  cases outcome with
  | err e ls => simp [codexTdd, execToolCatch]
  | ok r =>
    cases hp : parseOutput r.stdout with
    | error je => simp [codexTdd, execToolCatch, hp]
    | ok parsed =>
      simp only [codexTdd, hp]
      split
      · simp [execToolCatch]
      · split
        · simp [execToolCatch]
        · simp

theorem codexExec_error_flag (params : ExecParams) (outcome : ExecOutcome)
    (opId ts : String) (now : Int) :
    ((codexExec params outcome opId ts now).result.error.isSome &&
      (codexExec params outcome opId ts now).result.success) = false := by
  cases outcome with
  | err e ls => simp [codexExec, execToolCatch]
  | ok r =>
    cases hp : parseOutput r.stdout with
    | error je => simp [codexExec, execToolCatch, hp]
    | ok parsed =>
      simp only [codexExec, hp]
      split
      · simp [execToolCatch]
      · simp

theorem executeAndParse_fst_err (sid : Option String) (e : CodexErrorInfo)
    (ls : List String) (opId ts : String) :
    (executeAndParse sid (.err e ls) opId ts).1 = .error (.info e) := rfl

theorem runSingleReview_fst_err (params : ReviewParams) (e : CodexErrorInfo)
    (ls : List String) (rType opId ts : String) (now : Int) :
    (runSingleReview params (.err e ls) rType opId ts now).1 = .error (.info e) := rfl

theorem runFullReview_fst_err (params : ReviewParams) (e : CodexErrorInfo)
    (ls : List String) (outQ : ExecOutcome) (opS opQ ts : String) (now : Int) :
    (runFullReview params (.err e ls) outQ opS opQ ts now).1 = .error (.info e) := by
  cases hepQ : (executeAndParse (jsStrTruthy params.sessionId) outQ opQ ts).1 with
  | error t => simp [runFullReview, executeAndParse, hepQ]
  | ok qR => simp [runFullReview, executeAndParse, hepQ]

theorem runSingleReview_fst_ok (params : ReviewParams) (outcome : ExecOutcome)
    (rType opId ts : String) (now : Int) (res : CodexReviewResult)
    (h : (runSingleReview params outcome rType opId ts now).1 = .ok res) :
    res.error = none := by
  simp only [runSingleReview] at h
  cases hep : (executeAndParse (jsStrTruthy params.sessionId) outcome opId ts).1 with
  | error t => simp only [hep] at h; simp at h
  | ok parsed =>
    simp only [hep] at h
    split at h
    · simp at h
    · injection h with h3
      subst h3
      rfl

theorem runFullReview_fst_ok (params : ReviewParams) (outS outQ : ExecOutcome)
    (opS opQ ts : String) (now : Int) (res : CodexReviewResult)
    (h : (runFullReview params outS outQ opS opQ ts now).1 = .ok res) :
    res.error = none := by
  simp only [runFullReview] at h
  cases hepS : (executeAndParse (jsStrTruthy params.sessionId) outS opS ts).1 with
  | error t => simp only [hepS] at h; simp at h
  | ok sR =>
    cases hepQ : (executeAndParse (jsStrTruthy params.sessionId) outQ opQ ts).1 with
    | error t => simp only [hepS, hepQ] at h; simp at h
    | ok qR =>
      simp only [hepS, hepQ] at h
      injection h with h3
      subst h3
      rfl

theorem codexReview_error_flag (params : ReviewParams) (outS outQ : ExecOutcome)
    (opS opQ ts : String) (now : Int) :
    ((codexReview params outS outQ opS opQ ts now).result.error.isSome &&
      (codexReview params outS outQ opS opQ ts now).result.success) = false := by
  simp only [codexReview]
  split
  · next res acts tr heq =>
    have hfst := congrArg Prod.fst heq
    have herr : res.error = none := by
      split_ifs at hfst <;>
        first
          | exact runSingleReview_fst_ok _ _ _ _ _ _ _ hfst
          | exact runFullReview_fst_ok _ _ _ _ _ _ _ _ hfst
    simp [herr]
  · simp

theorem codexWrite_err_result (params : WriteParams) (e : CodexErrorInfo)
    (ls : List String) (opId ts : String) (now : Int) :
    (codexWrite params (.err e ls) opId ts now).result.success = false ∧
    (codexWrite params (.err e ls) opId ts now).result.error.isSome = true := by
  constructor <;> simp [codexWrite, execToolCatch]

theorem codexTdd_err_result (params : WriteParams) (e : CodexErrorInfo)
    (ls : List String) (opId ts : String) (now : Int) :
    (codexTdd params (.err e ls) opId ts now).result.success = false ∧
    (codexTdd params (.err e ls) opId ts now).result.error.isSome = true := by
  constructor <;> simp [codexTdd, execToolCatch]

theorem codexExec_err_result (params : ExecParams) (e : CodexErrorInfo)
    (ls : List String) (opId ts : String) (now : Int) :
    (codexExec params (.err e ls) opId ts now).result.success = false ∧
    (codexExec params (.err e ls) opId ts now).result.error.isSome = true := by
  constructor <;> simp [codexExec, execToolCatch]

theorem codexReview_err_result (params : ReviewParams) (e : CodexErrorInfo)
    (ls : List String) (outQ : ExecOutcome) (opS opQ ts : String) (now : Int) :
    (codexReview params (.err e ls) outQ opS opQ ts now).result.success = false ∧
    (codexReview params (.err e ls) outQ opS opQ ts now).result.error.isSome = true := by
  simp only [codexReview]
  split
  · next res acts tr heq =>
    exfalso
    have hfst := congrArg Prod.fst heq
    split_ifs at hfst <;>
      first
        | (rw [runSingleReview_fst_err] at hfst; simp at hfst)
        | (rw [runFullReview_fst_err] at hfst; simp at hfst)
  · constructor <;> simp

/-- C1 (amended): for each public tool operation, a returned result that
carries a structured error always has success = false, and every run in
which the executor raises a structured failure returns success = false
with the error populated; however a result with success = false and an
absent error does exist (a run whose tool process exits nonzero), so
"success = false always carries a populated error" does not hold. -/
theorem success_flag_error_pairing
    (pw : WriteParams) (ow : ExecOutcome) (opw tsw : String) (n1 : Int)
    (pt : WriteParams) (ot : ExecOutcome) (opt tst : String) (n2 : Int)
    (pe : ExecParams) (oe : ExecOutcome) (ope tse : String) (n3 : Int)
    (pr : ReviewParams) (ors orq : ExecOutcome) (ops opq tsr : String) (n4 : Int)
    (ew et ee er : CodexErrorInfo) (lw lt le lr : List String) :
    ((codexWrite pw ow opw tsw n1).result.error.isSome &&
        (codexWrite pw ow opw tsw n1).result.success) = false ∧
    ((codexTdd pt ot opt tst n2).result.error.isSome &&
        (codexTdd pt ot opt tst n2).result.success) = false ∧
    ((codexExec pe oe ope tse n3).result.error.isSome &&
        (codexExec pe oe ope tse n3).result.success) = false ∧
    ((codexReview pr ors orq ops opq tsr n4).result.error.isSome &&
        (codexReview pr ors orq ops opq tsr n4).result.success) = false ∧
    ((codexWrite pw (.err ew lw) opw tsw n1).result.success = false ∧
      (codexWrite pw (.err ew lw) opw tsw n1).result.error.isSome = true) ∧
    ((codexTdd pt (.err et lt) opt tst n2).result.success = false ∧
      (codexTdd pt (.err et lt) opt tst n2).result.error.isSome = true) ∧
    ((codexExec pe (.err ee le) ope tse n3).result.success = false ∧
      (codexExec pe (.err ee le) ope tse n3).result.error.isSome = true) ∧
    ((codexReview pr (.err er lr) orq ops opq tsr n4).result.success = false ∧
      (codexReview pr (.err er lr) orq ops opq tsr n4).result.error.isSome = true) :=
  ⟨codexWrite_error_flag pw ow opw tsw n1,
   codexTdd_error_flag pt ot opt tst n2,
   codexExec_error_flag pe oe ope tse n3,
   codexReview_error_flag pr ors orq ops opq tsr n4,
   codexWrite_err_result pw ew lw opw tsw n1,
   codexTdd_err_result pt et lt opt tst n2,
   codexExec_err_result pe ee le ope tse n3,
   codexReview_err_result pr er lr orq ops opq tsr n4⟩

/-- A run that exits nonzero after emitting a session id: the returned
result reports failure without any structured error attached. -/
def exitOneRun : ToolRun :=
  codexWrite { instruction := "x" }
    (.ok { stdout := threadStartedLine, exitCode := some 1 }) "op" "t" 0

/-- C1 counterexample: a returned result with success = false and an
absent error field exists. -/
theorem failed_result_without_error :
    exitOneRun.result.success = false ∧ exitOneRun.result.error = none :=
  ⟨rfl, rfl⟩

/-! ## C4 — nonzero exit is a soft failure -/

end Spec2Proof
